import Mathlib

/-
Verification of the `quick::variant` container from
`include/quick/experiments/variant.hpp`.

The C++ class is

  template<typename... Ts>
  struct variant {
    template<std::size_t index, typename... Args>
    NthType<index>& at(Args&&... args) {
      if (ptr == nullptr || selected_type_ != index) {
        ptr.reset(new NthTypeWrapper<index>(args...));
      }
      selected_type_ = index;
      return static_cast<NthTypeWrapper<index>&>(*ptr).object_;
    }
    template<std::size_t index>
    const NthType<index>& at() const {
      if (ptr == nullptr || selected_type_ != index) {
        throw std::runtime_error("[quick::variant]: const access is now "
                                 "allowed if corrosponding type is not "
                                 "already set");
      }
      return static_cast<const NthTypeWrapper<index>&>(*ptr).object_;
    }
    void clear() { ptr.reset(nullptr); }
    bool initialized() const { return (ptr != nullptr); }
    std::size_t selected_type() const {
      if (ptr == nullptr) { return sizeof...(Ts); }
      else { return selected_type_; }
    }
   private:
    std::unique_ptr<quick::variant_impl::AbstractBaseType> ptr;
    std::size_t selected_type_ = 0;
  };

Embedding choices:
 * The compile-time catalog `Ts...` of `N` types is a family
   `V : Fin N → Type`: `V i` is the concrete type bound to index `i`
   (`NthType<index>`).
 * The type-erased heap cell `TypeWrapper<T>` behind the
   `unique_ptr<AbstractBaseType>` is a dependent pair: the index the
   wrapper was instantiated at together with the payload `object_`.
   `ptr == nullptr` is `Option.none`.
 * `at<index>(args...)` is split into the state it leaves behind
   (`atConstruct`) and the value the returned reference denotes
   (`atConstructValue`); the const overload is `atReadonly`, returning
   `Except` in place of `throw`.  The `static_cast` view of the cell is
   `viewCell`; when the erased cell does not actually hold the type at
   the requested index the C++ cast would be undefined behaviour, which
   the embedding renders as `Option.none`.
 * Since the arguments are forwarded to the payload constructor, the
   arguments of a call are modelled by the value that constructor would
   produce.
-/

namespace Quick

/-- A constructor/destructor event of a payload, used to talk about the
order in which `at` constructs the new wrapper and destroys the old one. -/
inductive Event (N : Nat) where
  | construct (i : Fin N)
  | destroy (i : Fin N)
deriving DecidableEq

/-- The type-erased heap cell: `TypeWrapper<NthType<i>>` for the index `i`
it was instantiated at, holding the payload `object_ : V i`. -/
def Cell (N : Nat) (V : Fin N → Type) : Type := Σ i : Fin N, V i

/-- State of `quick::variant<Ts...>`: the owned erased cell (`ptr`, with `none` for
`nullptr`) and the private discriminant field `selected_type_`. -/
structure Variant (N : Nat) (V : Fin N → Type) where
  ptr : Option (Cell N V)
  selected_type_ : Nat

variable {N : Nat} {V : Fin N → Type}

/-- Default construction: `ptr` is a null `unique_ptr` and
`selected_type_` has its member initializer value `0`. -/
def Variant.fresh (N : Nat) (V : Fin N → Type) : Variant N V :=
  ⟨none, 0⟩

/-- The view `static_cast<NthTypeWrapper<j>&>(*cell).object_`: defined (as `some`)
exactly when the erased cell really holds the type bound to `j`; `none`
models the undefined behaviour of a mismatched cast. -/
def viewCell (c : Cell N V) (j : Fin N) : Option (V j) :=
  if h : c.1 = j then some (cast (congrArg V h) c.2) else none

/-- State left by `at<index>(args...)` (the mutable overload): if
`ptr == nullptr || selected_type_ != index` the cell is replaced by a
fresh wrapper holding the value `a` the forwarded arguments construct;
in either case `selected_type_` is then set to `index`. -/
def Variant.atConstruct (s : Variant N V) (index : Fin N) (a : V index) :
    Variant N V :=
  if s.ptr.isNone = true ∨ s.selected_type_ ≠ index.val then
    { ptr := some ⟨index, a⟩, selected_type_ := index.val }
  else
    { ptr := s.ptr, selected_type_ := index.val }

/-- The value denoted by the reference `at<index>(args...)` returns: the
cell left in place by the call, viewed at `index`. -/
def Variant.atConstructValue (s : Variant N V) (index : Fin N)
    (a : V index) : Option (V index) :=
  ((s.atConstruct index a).ptr).bind (fun c => viewCell c index)

/-- The exact message of the `std::runtime_error` thrown by the const
overload of `at`. -/
def invalidAccessMsg : String :=
  "[quick::variant]: const access is now allowed if corrosponding type is not already set"

/-- The const overload `at<index>() const`: throws (here `Except.error`)
when `ptr == nullptr || selected_type_ != index`, otherwise returns the
reference to the cell viewed at `index` (inner `none` again standing for
the undefined cast on a desynchronized cell, which never occurs in
reachable states).  It takes the state only as input: it mutates
nothing. -/
def Variant.atReadonly (s : Variant N V) (index : Fin N) :
    Except String (Option (V index)) :=
  if s.ptr.isNone = true ∨ s.selected_type_ ≠ index.val then
    Except.error invalidAccessMsg
  else
    Except.ok (s.ptr.bind (fun c => viewCell c index))

/-- Member `clear()`: `ptr.reset(nullptr)`.  Note it does not touch
`selected_type_`. -/
def Variant.clear (s : Variant N V) : Variant N V :=
  { s with ptr := none }

/-- Member `initialized()`: `ptr != nullptr`. -/
def Variant.initialized (s : Variant N V) : Bool :=
  s.ptr.isSome

/-- Member `selected_type()`: the public discriminant, `sizeof...(Ts)` (the
sentinel `N`) when the cell is absent, the stored field otherwise. -/
def Variant.selected_type (s : Variant N V) : Nat :=
  if s.ptr.isNone = true then N else s.selected_type_

/-- The state the spec calls `Holding(i)`: a cell is present and the observable
discriminant is `i`. -/
def Variant.Holding (s : Variant N V) (i : Fin N) : Prop :=
  s.initialized = true ∧ s.selected_type = i.val

/-- Constructor/destructor events of one `at<index>(args...)` call, in
source order.  On the rebuild path `ptr.reset(new NthTypeWrapper<index>(args...))`
first fully evaluates the new-expression (constructing the new payload)
and only then lets `reset` destroy the previously held wrapper through
its virtual destructor; on the reuse path nothing is constructed or
destroyed. -/
def Variant.atEvents (s : Variant N V) (index : Fin N) : List (Event N) :=
  if s.ptr.isNone = true ∨ s.selected_type_ ≠ index.val then
    Event.construct index ::
      (match s.ptr with
       | none => []
       | some c => [Event.destroy c.1])
  else []

/-- Call `at<index>(args...)` when the payload constructor (or the allocation)
may fail: `mk = none` means the new-expression raised.  In that case
`ptr.reset` is never entered and `selected_type_ = index` is never
executed, so the members keep their previous values and the second
component reports that the error propagated. -/
def Variant.atTry (s : Variant N V) (index : Fin N)
    (mk : Option (V index)) : Variant N V × Bool :=
  if s.ptr.isNone = true ∨ s.selected_type_ ≠ index.val then
    match mk with
    | none => (s, true)
    | some a => ({ ptr := some ⟨index, a⟩, selected_type_ := index.val }, false)
  else
    ({ ptr := s.ptr, selected_type_ := index.val }, false)

/-- States reachable from a default-constructed variant by any sequence
of calls.  Only `at` (mutable overload) and `clear` write to the object;
`at const`, `initialized` and `selected_type` are const members and leave
the state unchanged, so they contribute no step. -/
inductive Reachable : Variant N V → Prop where
  | init : Reachable (Variant.fresh N V)
  | step_at (s : Variant N V) (index : Fin N) (a : V index) :
      Reachable s → Reachable (s.atConstruct index a)
  | step_clear (s : Variant N V) :
      Reachable s → Reachable s.clear

/-- The synchronization invariant: whenever a cell is present, the stored
discriminant field equals the index the wrapper of the cell was instantiated
at. -/
def WellFormed (s : Variant N V) : Prop :=
  ∀ c : Cell N V, s.ptr = some c → s.selected_type_ = c.1.val

/-- In an event trace, every destroy of payload `i` happens strictly
before every construct of payload `j` — the ordering asserted by the
claim that the previous payload is destroyed before the new one is
constructed. -/
def DestroyPrecedesConstruct (tr : List (Event N)) (i j : Fin N) : Prop :=
  ∀ d c : Fin tr.length,
    tr.get d = Event.destroy i → tr.get c = Event.construct j →
      d.val < c.val

/-- Lookup `GetNthType<index, Ts...>`: the compile-time lookup resolves by
walking the inheritance chain `TypeListImpl<k, T, Rest...> :
TypeListImpl<k+1, Rest...>` from `k = 0` until the level parameter
matches `index`; resolution fails (`none`, a compile error in C++) when
the list runs out first. -/
def getNthTypeFrom {α : Type} (k index : Nat) : List α → Option α
  | [] => none
  | t :: rest =>
      if k = index then some t else getNthTypeFrom (k + 1) index rest

/-- Lookup `GetNthType<index, Ts...>` starting the walk at the most-derived
level `TypeListImpl<0, Ts...>`. -/
def GetNthType {α : Type} (index : Nat) (Ts : List α) : Option α :=
  getNthTypeFrom 0 index Ts

/-- A concrete two-type catalog (both alternatives `Nat`) used for
concrete evaluations. -/
abbrev natCatalog : Fin 2 → Type := fun _ => Nat

/-- A fresh `variant` over the two-type catalog. -/
def exFresh : Variant 2 natCatalog := Variant.fresh 2 natCatalog

/-- A concrete state `Holding(0)` with payload `5`. -/
def exHold0 : Variant 2 natCatalog := ⟨some ⟨0, (5 : Nat)⟩, 0⟩

/- ------------------------------------------------------------------ -/
/- Helper lemmas. -/

/-- On the rebuild path (`ptr == nullptr || selected_type_ != index`),
`at` leaves a fresh cell at `index` and the discriminant `index`. -/
theorem atConstruct_rebuild (s : Variant N V) (i : Fin N) (a : V i)
    (h : s.ptr.isNone = true ∨ s.selected_type_ ≠ i.val) :
    s.atConstruct i a = ⟨some ⟨i, a⟩, i.val⟩ := by
  rw [Variant.atConstruct, if_pos h]

/-- On the reuse path, `at` keeps the cell and only (re)writes the
discriminant. -/
theorem atConstruct_reuse (s : Variant N V) (i : Fin N) (a : V i)
    (h : ¬(s.ptr.isNone = true ∨ s.selected_type_ ≠ i.val)) :
    s.atConstruct i a = ⟨s.ptr, i.val⟩ := by
  rw [Variant.atConstruct, if_neg h]

/-- After any `at` call the discriminant field is the requested index. -/
theorem atConstruct_selected_field (s : Variant N V) (i : Fin N)
    (a : V i) : (s.atConstruct i a).selected_type_ = i.val := by
  unfold Variant.atConstruct
  split <;> rfl

/-- After any `at` call a cell is present. -/
theorem atConstruct_ptr_isSome (s : Variant N V) (i : Fin N) (a : V i) :
    ((s.atConstruct i a).ptr).isSome = true := by
  by_cases h : s.ptr.isNone = true ∨ s.selected_type_ ≠ i.val
  · rw [atConstruct_rebuild s i a h]
    rfl
  · rw [atConstruct_reuse s i a h]
    push_neg at h
    obtain ⟨h1, _⟩ := h
    cases hp : s.ptr with
    | none => exact absurd (by rw [hp]; rfl) h1
    | some c => rfl

/-- When a cell is present, the public discriminant is the stored
field. -/
theorem selected_type_of_isSome (s : Variant N V)
    (h : s.ptr.isSome = true) : s.selected_type = s.selected_type_ := by
  cases hp : s.ptr with
  | none => rw [hp] at h; simp at h
  | some c => simp [Variant.selected_type, hp]

/-- The branch guard of both `at` overloads is exactly the negation of
the spec state `Holding(i)`. -/
theorem guard_iff_not_holding (s : Variant N V) (i : Fin N) :
    (s.ptr.isNone = true ∨ s.selected_type_ ≠ i.val) ↔ ¬ s.Holding i := by
  cases hp : s.ptr with
  | none =>
      simp [Variant.Holding, Variant.initialized, Variant.selected_type, hp]
  | some c =>
      simp [Variant.Holding, Variant.initialized, Variant.selected_type, hp]

/-- Viewing a cell at the index it was built at yields its payload. -/
theorem viewCell_mk (i : Fin N) (a : V i) :
    viewCell (N := N) (V := V) ⟨i, a⟩ i = some a := by
  unfold viewCell
  rw [dif_pos rfl]
  rfl

/-- Every reachable state satisfies the synchronization invariant: the
stored discriminant matches the index the live cell was built at. -/
theorem wellFormed_of_reachable {s : Variant N V} (h : Reachable s) :
    WellFormed s := by
  induction h with
  | init =>
      intro c hc
      simp [Variant.fresh] at hc
  | step_at s i a hr ih =>
      intro c hc
      by_cases hg : s.ptr.isNone = true ∨ s.selected_type_ ≠ i.val
      · rw [atConstruct_rebuild s i a hg] at hc
        simp only at hc
        rw [atConstruct_selected_field]
        injection hc with hc
        rw [← hc]
      · rw [atConstruct_reuse s i a hg] at hc
        simp only at hc
        rw [atConstruct_selected_field]
        push_neg at hg
        rw [← hg.2]
        exact ih c hc
  | step_clear s hr ih =>
      intro c hc
      simp [Variant.clear] at hc

/-- After any `at` call the variant is in state `Holding(index)`. -/
theorem holding_atConstruct (s : Variant N V) (i : Fin N) (a : V i) :
    (s.atConstruct i a).Holding i := by
  have hs : ((s.atConstruct i a).ptr).isSome = true :=
    atConstruct_ptr_isSome s i a
  exact ⟨hs, by
    rw [selected_type_of_isSome _ hs, atConstruct_selected_field]⟩

/-- In state `Holding(i)`, `at<i>` is the identity on the state: the
guard fails, the cell is kept, and the discriminant is rewritten with
the value it already has. -/
theorem atConstruct_of_holding (s : Variant N V) (i : Fin N) (a : V i)
    (h : s.Holding i) : s.atConstruct i a = s := by
  have hg : ¬(s.ptr.isNone = true ∨ s.selected_type_ ≠ i.val) := by
    rw [guard_iff_not_holding]
    exact not_not_intro h
  rw [atConstruct_reuse s i a hg]
  have hsel : s.selected_type_ = i.val := by
    have h2 := h.2
    rw [selected_type_of_isSome s h.1] at h2
    exact h2
  cases s with
  | mk p t =>
      simp only at hsel
      rw [hsel]

/-- In state `Holding(i)`, `at<i>` performs no construction and no
destruction. -/
theorem atEvents_of_holding (s : Variant N V) (i : Fin N)
    (h : s.Holding i) : s.atEvents i = [] := by
  have hg : ¬(s.ptr.isNone = true ∨ s.selected_type_ ≠ i.val) := by
    rw [guard_iff_not_holding]
    exact not_not_intro h
  rw [Variant.atEvents, if_neg hg]

/-- On the rebuild path the returned reference denotes the freshly
constructed value. -/
theorem atConstructValue_of_rebuild (s : Variant N V) (i : Fin N)
    (a : V i) (h : s.ptr.isNone = true ∨ s.selected_type_ ≠ i.val) :
    s.atConstructValue i a = some a := by
  rw [Variant.atConstructValue, atConstruct_rebuild s i a h]
  simp [viewCell_mk]

/- ------------------------------------------------------------------ -/
/- Claim theorems. -/

/-- Claim C1: a second `at<i>(args2)` on a variant already in state
`Holding(i)` performs no reconstruction and leaves both the state and
the returned value of the first call unchanged, ignoring `args2`; in
particular `at<i>(a1)` then `at<i>(a2)` keeps the value built from
`a1`, and on a matching state `at<i>` fires no constructor or
destructor events at all. -/
theorem atConstruct_same_index_is_noop (s : Variant N V) (i : Fin N)
    (a1 a2 : V i) :
    ((s.atConstruct i a1).atConstruct i a2 = s.atConstruct i a1) ∧
    ((s.atConstruct i a1).atConstructValue i a2
        = s.atConstructValue i a1) ∧
    (s.Holding i → s.atConstruct i a2 = s ∧ s.atEvents i = []) := by
  have hrep : (s.atConstruct i a1).atConstruct i a2 = s.atConstruct i a1 :=
    atConstruct_of_holding _ i a2 (holding_atConstruct s i a1)
  refine ⟨hrep, ?_, fun h => ⟨atConstruct_of_holding s i a2 h,
    atEvents_of_holding s i h⟩⟩
  rw [Variant.atConstructValue, hrep, Variant.atConstructValue]

/-- Claim C1 witness: over `{Nat, Nat}`, constructing `5` at index `0`
then calling `at<0>(9)` keeps the state of the first call; on the
concrete holding state the call is the identity and fires no events. -/
theorem atConstruct_same_index_is_noop_witness :
    ((exHold0.atConstruct 0 5).atConstruct 0 9 = exHold0.atConstruct 0 5) ∧
    (exHold0.atConstruct 0 9 = exHold0 ∧ exHold0.atEvents 0 = []) :=
  ⟨(atConstruct_same_index_is_noop exHold0 0 5 9).1,
   (atConstruct_same_index_is_noop exHold0 0 5 9).2.2 ⟨rfl, rfl⟩⟩

/-- Claim C2: the strict read `at<i>() const` throws the invalid-access
error exactly when the state is not `Holding(i)`; in particular it
throws for every index on a fresh variant, and it throws for `i` right
after `at<j>(b)` with `j ≠ i`.  It consumes the state without producing
a new one, so it never constructs and has no side effect by
construction. -/
theorem atReadonly_fails_iff_not_holding (s : Variant N V) (i : Fin N) :
    (s.atReadonly i = Except.error invalidAccessMsg ↔ ¬ s.Holding i) ∧
    ((Variant.fresh N V).atReadonly i = Except.error invalidAccessMsg) ∧
    (∀ (j : Fin N) (b : V j), j ≠ i →
      (s.atConstruct j b).atReadonly i = Except.error invalidAccessMsg) := by
  refine ⟨⟨?_, ?_⟩, ?_, ?_⟩
  · intro he
    rw [← guard_iff_not_holding]
    by_contra hg
    rw [Variant.atReadonly, if_neg hg] at he
    exact Except.noConfusion he
  · intro hnh
    rw [← guard_iff_not_holding] at hnh
    rw [Variant.atReadonly, if_pos hnh]
  · have hg : ((Variant.fresh N V).ptr).isNone = true ∨
        (Variant.fresh N V).selected_type_ ≠ i.val := Or.inl rfl
    rw [Variant.atReadonly, if_pos hg]
  · intro j b hji
    have hg : ((s.atConstruct j b).ptr).isNone = true ∨
        (s.atConstruct j b).selected_type_ ≠ i.val := by
      refine Or.inr ?_
      rw [atConstruct_selected_field]
      exact fun h => hji (Fin.ext h)
    rw [Variant.atReadonly, if_pos hg]

/-- Claim C2 witness: on the fresh variant over `{Nat, Nat}` the strict
read at `0` throws, and it still throws at `0` right after constructing
at index `1`. -/
theorem atReadonly_fails_iff_not_holding_witness :
    exFresh.atReadonly 0 = Except.error invalidAccessMsg ∧
    (exFresh.atConstruct 1 7).atReadonly 0 = Except.error invalidAccessMsg :=
  ⟨(atReadonly_fails_iff_not_holding exFresh 0).2.1,
   (atReadonly_fails_iff_not_holding exFresh 0).2.2 1 7 (by decide)⟩

/-- Claim C5: after `at<i>(args)` from any prior state, the public
discriminant is `i` and the variant is initialized. -/
theorem atConstruct_sets_active_index (s : Variant N V) (i : Fin N)
    (a : V i) :
    (s.atConstruct i a).selected_type = i.val ∧
    (s.atConstruct i a).initialized = true := by
  have h := holding_atConstruct s i a
  exact ⟨h.2, h.1⟩

/-- Claim C6: `clear()` from any state gives `initialized() = false`,
`selected_type() = N` (the sentinel), a strict read that throws for
every index, and a second `clear()` that changes nothing. -/
theorem clear_transitions_to_empty (s : Variant N V) :
    s.clear.initialized = false ∧
    s.clear.selected_type = N ∧
    (∀ i : Fin N, s.clear.atReadonly i = Except.error invalidAccessMsg) ∧
    s.clear.clear = s.clear := by
  refine ⟨rfl, rfl, ?_, rfl⟩
  intro i
  have hg : (s.clear.ptr).isNone = true ∨ s.clear.selected_type_ ≠ i.val :=
    Or.inl rfl
  rw [Variant.atReadonly, if_pos hg]

/-- Claim C10: although `clear()` leaves the private `selected_type_`
field untouched, the previously active index is unobservable afterwards:
the public discriminant is the sentinel `N`, the strict read throws for
every index, and `at<i>(a)` rebuilds a fresh cell from `a` for every
index `i` — including the one active just before the `clear()` (`s` and
`i` are universally quantified, so `i` may be the pre-clear index). -/
theorem clear_forgets_previous_index (s : Variant N V) (i : Fin N)
    (a : V i) :
    s.clear.selected_type = N ∧
    s.clear.atReadonly i = Except.error invalidAccessMsg ∧
    s.clear.atConstruct i a = ⟨some ⟨i, a⟩, i.val⟩ ∧
    s.clear.atConstructValue i a = some a := by
  have hg : (s.clear.ptr).isNone = true ∨ s.clear.selected_type_ ≠ i.val :=
    Or.inl rfl
  refine ⟨rfl, ?_, ?_, ?_⟩
  · rw [Variant.atReadonly, if_pos hg]
  · exact atConstruct_rebuild _ i a hg
  · exact atConstructValue_of_rebuild _ i a hg

/-- Claim C3: in every state reachable from a default-constructed
variant, an absent cell makes the public discriminant the empty
sentinel `N`, and a present cell makes both the public and the stored
discriminant equal to the index the payload of the cell was built at — the
discriminant and the erased storage never desynchronize. -/
theorem discriminant_cell_sync (s : Variant N V) (h : Reachable s) :
    (s.ptr = none → s.selected_type = N) ∧
    (∀ c : Cell N V, s.ptr = some c →
      s.selected_type = c.1.val ∧ s.selected_type_ = c.1.val) := by
  refine ⟨?_, ?_⟩
  · intro hp
    simp [Variant.selected_type, hp]
  · intro c hc
    have hw := wellFormed_of_reachable h c hc
    refine ⟨?_, hw⟩
    have hs : s.ptr.isSome = true := by rw [hc]; rfl
    rw [selected_type_of_isSome s hs, hw]

/-- Claim C3 witness: the invariant instantiated at the reachable state
obtained by constructing `5` at index `0` on a fresh variant over
`{Nat, Nat}`. -/
theorem discriminant_cell_sync_witness :
    ((exFresh.atConstruct 0 5).ptr = none →
      (exFresh.atConstruct 0 5).selected_type = 2) ∧
    (∀ c : Cell 2 natCatalog, (exFresh.atConstruct 0 5).ptr = some c →
      (exFresh.atConstruct 0 5).selected_type = c.1.val ∧
      (exFresh.atConstruct 0 5).selected_type_ = c.1.val) :=
  discriminant_cell_sync (exFresh.atConstruct 0 5)
    (Reachable.step_at exFresh 0 5 Reachable.init)

/-- Claim C7: from any reachable state, `at<i>() const` right after
`at<i>(a)` succeeds and returns exactly the value denoted by the reference of the mutable
call; when the state before the call was not already
`Holding(i)` (so a construction really happened) that value is the one
built from the forwarded arguments `a`. -/
theorem atConstruct_then_atReadonly_roundtrip (s : Variant N V)
    (i : Fin N) (a : V i) (h : Reachable s) :
    ∃ v : V i, s.atConstructValue i a = some v ∧
      (s.atConstruct i a).atReadonly i = Except.ok (some v) ∧
      (¬ s.Holding i → v = a) := by
  by_cases hg : s.ptr.isNone = true ∨ s.selected_type_ ≠ i.val
  · refine ⟨a, atConstructValue_of_rebuild s i a hg, ?_, fun _ => rfl⟩
    rw [atConstruct_rebuild s i a hg, Variant.atReadonly, if_neg ?_]
    · simp [viewCell_mk]
    · intro hcon
      rcases hcon with hcon | hcon
      · exact Bool.noConfusion hcon
      · exact hcon rfl
  · have hh : s.Holding i := by
      by_contra hnh
      exact hg ((guard_iff_not_holding s i).mpr hnh)
    have hps : s.ptr.isSome = true := hh.1
    obtain ⟨c, hc⟩ := Option.isSome_iff_exists.mp hps
    have hsel : s.selected_type_ = i.val := by
      have h2 := hh.2
      rwa [selected_type_of_isSome s hps] at h2
    have hcw : s.selected_type_ = c.1.val := wellFormed_of_reachable h c hc
    have hci : c.1 = i := Fin.ext (by rw [← hcw, hsel])
    refine ⟨cast (congrArg V hci) c.2, ?_, ?_, fun hnh => absurd hh hnh⟩
    · rw [Variant.atConstructValue, atConstruct_reuse s i a hg]
      show (s.ptr.bind fun c => viewCell c i) = _
      rw [hc]
      show viewCell c i = _
      unfold viewCell
      rw [dif_pos hci]
    · rw [atConstruct_reuse s i a hg, Variant.atReadonly, if_neg ?_]
      · show Except.ok (s.ptr.bind fun c => viewCell c i) = _
        rw [hc]
        show Except.ok (viewCell c i) = _
        unfold viewCell
        rw [dif_pos hci]
      · intro hcon
        rcases hcon with hcon | hcon
        · rw [show (⟨s.ptr, i.val⟩ : Variant N V).ptr = s.ptr from rfl, hc] at hcon
          exact Bool.noConfusion hcon
        · exact hcon rfl

/-- Claim C7 witness: on the fresh variant over `{Nat, Nat}`, reading
back right after constructing `5` at index `0` succeeds with the very
value the construction returned, and that value is `5`. -/
theorem atConstruct_then_atReadonly_roundtrip_witness :
    ∃ v : Nat, exFresh.atConstructValue 0 5 = some v ∧
      (exFresh.atConstruct 0 5).atReadonly 0 = Except.ok (some v) ∧
      (¬ exFresh.Holding 0 → v = 5) :=
  atConstruct_then_atReadonly_roundtrip exFresh 0 5 Reachable.init

/-- The walk of the inheritance chain resolves exactly when the
requested level lies inside the remaining list. -/
theorem getNthTypeFrom_isSome {α : Type} (Ts : List α) (k index : Nat) :
    (getNthTypeFrom k index Ts).isSome = true ↔
      k ≤ index ∧ index < k + Ts.length := by
  induction Ts generalizing k with
  | nil =>
      simp only [getNthTypeFrom, Option.isSome_none, List.length_nil]
      constructor
      · intro hf
        exact Bool.noConfusion hf
      · intro hcon
        omega
  | cons t rest ih =>
      by_cases hk : k = index
      · subst hk
        simp only [getNthTypeFrom, if_pos rfl, Option.isSome_some,
          List.length_cons]
        constructor
        · intro _
          omega
        · intro _
          rfl
      · simp only [getNthTypeFrom, if_neg hk, ih (k + 1), List.length_cons]
        omega

/-- Claim C8: the compile-time catalog lookup `GetNthType<index, Ts...>`
resolves exactly for the indices inside the catalog: for `index ≥ N`
the derived-to-base walk runs out of list and resolution fails (a build
error in C++, `none` here), so the access operations are only defined
for indices in `[0, N)` — which the embedding also enforces by typing
every runtime index as `Fin N`. -/
theorem getNthType_resolves_iff_in_range {α : Type} (Ts : List α)
    (index : Nat) :
    (GetNthType index Ts).isSome = true ↔ index < Ts.length := by
  rw [GetNthType, getNthTypeFrom_isSome]
  omega

/-- Claim C9: if the branch guard selects the rebuild path and the
payload constructor (or allocation) raises, `at<i>(args)` leaves both
members untouched — the previous cell and discriminant survive and the
error propagates (`atTry` then returns the unchanged state paired with
`true`); with a succeeding constructor `atTry` agrees with the normal
`at` semantics and reports no error. -/
theorem atConstruct_failure_preserves_state (s : Variant N V) (i : Fin N)
    (a : V i) :
    ((s.ptr.isNone = true ∨ s.selected_type_ ≠ i.val) →
      s.atTry i none = (s, true)) ∧
    s.atTry i (some a) = (s.atConstruct i a, false) := by
  constructor
  · intro hg
    rw [Variant.atTry, if_pos hg]
  · by_cases hg : s.ptr.isNone = true ∨ s.selected_type_ ≠ i.val
    · rw [Variant.atTry, if_pos hg, atConstruct_rebuild s i a hg]
    · rw [Variant.atTry, if_neg hg, atConstruct_reuse s i a hg]

/-- Claim C9 witness: on the fresh variant over `{Nat, Nat}` a failing
construction at index `0` leaves the variant exactly as it was and
reports the propagated error. -/
theorem atConstruct_failure_preserves_state_witness :
    exFresh.atTry 0 none = (exFresh, true) :=
  (atConstruct_failure_preserves_state exFresh 0 5).1 (Or.inl rfl)

/-- Claim C4 counterexample: over `{Nat, Nat}` in state `Holding(0)`
with payload `5`, calling `at<1>(...)` produces the event trace
`[construct 1, destroy 0]`: `ptr.reset(new NthTypeWrapper<1>(...))`
fully constructs the new payload first and only then destroys the old
one, so the destroy does not precede the construct and both payloads
are live between the two events — refuting the claimed ordering. -/
theorem atConstruct_destroy_order_counterexample :
    exHold0.atEvents 1 = [Event.construct 1, Event.destroy 0] ∧
    ¬ DestroyPrecedesConstruct (exHold0.atEvents 1) 0 1 := by
  constructor
  · rfl
  · unfold DestroyPrecedesConstruct
    decide

/-- Claim C4 amended: for `i ≠ j`, `at<j>(b)` in state `Holding(i)`
destroys the previous payload as part of the call, but only after the
new payload has been fully constructed (the trace is
`[construct j, destroy i]`, with exactly one destroy); afterwards only
the new payload is live: the cell holds the value built from `b` at
index `j` and the public discriminant is `j`. -/
theorem atConstruct_switch_constructs_then_destroys (s : Variant N V)
    (c : Cell N V) (i j : Fin N) (b : V j)
    (hp : s.ptr = some c) (hc1 : c.1 = i) (hsel : s.selected_type_ = i.val)
    (hij : i ≠ j) :
    s.atEvents j = [Event.construct j, Event.destroy i] ∧
    s.atConstruct j b = ⟨some ⟨j, b⟩, j.val⟩ ∧
    (s.atConstruct j b).selected_type = j.val := by
  have hg : s.ptr.isNone = true ∨ s.selected_type_ ≠ j.val := by
    refine Or.inr ?_
    rw [hsel]
    exact fun h => hij (Fin.ext h)
  refine ⟨?_, atConstruct_rebuild s j b hg, ?_⟩
  · rw [Variant.atEvents, if_pos hg, hp]
    show [Event.construct j, Event.destroy c.1] =
      [Event.construct j, Event.destroy i]
    rw [hc1]
  · rw [atConstruct_rebuild s j b hg]
    rfl

/-- Claim C4 amended witness: in the concrete `Holding(0)` state over
`{Nat, Nat}`, switching to index `1` with payload `7` yields the trace
`[construct 1, destroy 0]` and leaves the variant holding `7` at
index `1`. -/
theorem atConstruct_switch_constructs_then_destroys_witness :
    exHold0.atEvents 1 = [Event.construct 1, Event.destroy 0] ∧
    exHold0.atConstruct 1 7 = ⟨some ⟨1, (7 : Nat)⟩, 1⟩ ∧
    (exHold0.atConstruct 1 7).selected_type = 1 :=
  atConstruct_switch_constructs_then_destroys exHold0 ⟨0, (5 : Nat)⟩ 0 1 7
    rfl rfl rfl (by decide)

end Quick
